import Mathlib

/-!
# Verification of the CLARITE `modify` module

Shallow embedding of `src/clarite/modules/modify.py` (column filters, row
filter, value recoding, outlier removal, type casters) together with proofs
of the specified properties.

Modelling conventions:
* A cell is `Option ℚ`: `none` is the missing-value marker (`NaN`); any
  comparison of `NaN` with a value is `False` in the source, which the
  embedding reproduces explicitly at each use site.
* A dataframe is a row index (identifiers plus the index name metadata and
  a flag recording whether the index is a pandas `MultiIndex`) and a list
  of named, dtype-tagged columns.
* A Python function that may mutate its argument is embedded as two
  functions: the returned value, and a `…_inputAfter` function giving the
  state of the caller's dataframe object once the call (or the raised
  error) has finished.
* `raise ValueError(...)` becomes `Except.error` with a structured error
  carrying the data interpolated into the message.
-/

/-- Column dtype as far as the module inspects it: `remove_outliers` only
checks `str(data.dtypes[c]) == 'category'`. -/
inductive Dtype where
  | category : Dtype
  | numeric : Dtype
deriving DecidableEq, Repr

/-- A named column: a dtype tag and one cell per row (`none` = missing). -/
structure Column where
  name : String
  dtype : Dtype
  cells : List (Option ℚ)
deriving DecidableEq, Repr

instance : Inhabited Column := ⟨⟨"", Dtype.numeric, []⟩⟩

/-- A dataframe: row identifiers, the index `name` metadata, whether the
index is a `MultiIndex`, and the columns. -/
structure DataFrame where
  indexName : Option String
  isMultiIndex : Bool
  index : List ℤ
  cols : List Column
deriving DecidableEq, Repr

/-- The distinct `ValueError`s raised by the module and by the column
selector, carrying the data interpolated into each message. -/
inductive MErr where
  | configuration : MErr
  | unknownColumn : MErr
  | invalidCutoff : MErr
  | invalidMethod : String → MErr
  | multiIndex : String → MErr
  | cardinality : ℕ → ℕ → MErr
deriving DecidableEq, Repr

/-- Modelled from the spec: `_validate_skip_only` lives in
`clarite.internal.utilities`, which is not among the provided sources; only
its import and call sites appear in `modify.py`.  Per spec §4.1: giving both
`skip` and `only` is a `ConfigurationError`; `only` must be a subset of the
existing columns (`UnknownColumnError` otherwise) and selects exactly those
columns; `skip` selects the complement; neither selects every column.  The
result is order-preserving relative to `all_columns`. -/
def _validate_skip_only (all_columns : List String)
    (skip only_ : Option (List String)) : Except MErr (List String) :=
  match skip, only_ with
  | some _, some _ => .error .configuration
  | none, some o =>
      if o.all (fun c => decide (c ∈ all_columns)) then
        .ok (all_columns.filter (fun c => decide (c ∈ o)))
      else .error .unknownColumn
  | some s, none => .ok (all_columns.filter (fun c => decide (c ∉ s)))
  | none, none => .ok all_columns

instance {ε α : Type _} [DecidableEq ε] [DecidableEq α] :
    DecidableEq (Except ε α) := fun x y =>
  match x, y with
  | .error a, .error b =>
      if h : a = b then .isTrue (by rw [h])
      else .isFalse (fun hh => by injection hh with h2; exact h h2)
  | .ok a, .ok b =>
      if h : a = b then .isTrue (by rw [h])
      else .isFalse (fun hh => by injection hh with h2; exact h h2)
  | .error _, .ok _ => .isFalse (fun hh => by injection hh)
  | .ok _, .error _ => .isFalse (fun hh => by injection hh)

/-- Count of non-missing cells: `col.count()` in pandas. -/
def nonMissingCount (col : Column) : ℕ :=
  col.cells.countP (fun c => c.isSome)

/-- Count of cells equal to zero: `sum(col == 0)`; a missing cell compares
unequal to `0`, so only non-missing zeros are counted. -/
def zeroCount (col : Column) : ℕ :=
  col.cells.countP (fun c => c == some 0)

/-- The column's non-missing values, in row order. -/
def colNonMissing (col : Column) : List ℚ :=
  col.cells.filterMap id

/-- `col.nunique()`: the number of distinct non-missing values. -/
def nunique (col : Column) : ℕ :=
  (colNonMissing col).dedup.length

/-- `col.value_counts().min()`: the smallest count among the distinct
non-missing values, `none` (`NaN`) when the column has no non-missing
value. -/
def minCatCount (col : Column) : Option ℕ :=
  let vs := colNonMissing col
  (vs.dedup.map (fun v => vs.count v)).min?

/-- The per-column statistic of `colfilter_percent_zero`:
`sum(col == 0) / col.count()`.  With no non-missing value this is the float
division `0 / 0 = NaN`, embedded as `none`. -/
def percentZero (col : Column) : Option ℚ :=
  if nonMissingCount col = 0 then none
  else some ((zeroCount col : ℚ) / (nonMissingCount col : ℚ))

/-- Keep predicate of `colfilter_percent_zero`:
`(percent_value < proportion) | ~data.columns.isin(columns)`; a `NaN`
statistic compares `False` against the threshold. -/
def pzKept (proportion : ℚ) (columns : List String) (col : Column) : Bool :=
  (match percentZero col with
   | none => false
   | some r => decide (r < proportion)) || !(decide (col.name ∈ columns))

/-- `colfilter_percent_zero(data, proportion, skip, only)`. -/
def colfilter_percent_zero (proportion : ℚ)
    (skip only_ : Option (List String)) (df : DataFrame) :
    Except MErr DataFrame :=
  match _validate_skip_only (df.cols.map (fun c => c.name)) skip only_ with
  | .error e => .error e
  | .ok columns => .ok { df with cols := df.cols.filter (pzKept proportion columns) }

/-- The function only reads `data` (`apply`, `isin`, `loc`): the caller's
frame is unchanged when the call returns. -/
def colfilter_percent_zero_inputAfter (_proportion : ℚ)
    (_skip _only : Option (List String)) (df : DataFrame) : DataFrame := df

/-- Keep predicate of `colfilter_min_n`:
`(counts >= n) | ~data.columns.isin(columns)`. -/
def mnKept (n : ℕ) (columns : List String) (col : Column) : Bool :=
  decide (n ≤ nonMissingCount col) || !(decide (col.name ∈ columns))

/-- `colfilter_min_n(data, n, skip, only)`. -/
def colfilter_min_n (n : ℕ) (skip only_ : Option (List String))
    (df : DataFrame) : Except MErr DataFrame :=
  match _validate_skip_only (df.cols.map (fun c => c.name)) skip only_ with
  | .error e => .error e
  | .ok columns => .ok { df with cols := df.cols.filter (mnKept n columns) }

/-- The function only reads `data`: the caller's frame is unchanged. -/
def colfilter_min_n_inputAfter (_n : ℕ)
    (_skip _only : Option (List String)) (df : DataFrame) : DataFrame := df

/-- Keep predicate of `colfilter_min_cat_n`:
`(min_category_counts >= n) | ~data.columns.isin(columns)`; a `NaN`
minimum (column with no non-missing value) compares `False`. -/
def mcKept (n : ℕ) (columns : List String) (col : Column) : Bool :=
  (match minCatCount col with
   | none => false
   | some m => decide (n ≤ m)) || !(decide (col.name ∈ columns))

/-- `colfilter_min_cat_n(data, n, skip, only)`. -/
def colfilter_min_cat_n (n : ℕ) (skip only_ : Option (List String))
    (df : DataFrame) : Except MErr DataFrame :=
  match _validate_skip_only (df.cols.map (fun c => c.name)) skip only_ with
  | .error e => .error e
  | .ok columns => .ok { df with cols := df.cols.filter (mcKept n columns) }

/-- The function only reads `data`: the caller's frame is unchanged. -/
def colfilter_min_cat_n_inputAfter (_n : ℕ)
    (_skip _only : Option (List String)) (df : DataFrame) : DataFrame := df

/-- Row-completeness test of `rowfilter_incomplete_observations`: row `j`
is kept when no selected column has a missing value there
(`data[columns].isnull().sum(axis=1) == 0`). -/
def rowComplete (cols : List Column) (columns : List String) (j : ℕ) : Bool :=
  cols.all (fun c => !(decide (c.name ∈ columns)) || (c.cells.getD j none).isSome)

/-- `rowfilter_incomplete_observations(data, skip, only)`. -/
def rowfilter_incomplete_observations (skip only_ : Option (List String))
    (df : DataFrame) : Except MErr DataFrame :=
  match _validate_skip_only (df.cols.map (fun c => c.name)) skip only_ with
  | .error e => .error e
  | .ok columns =>
      let keepIdx := (List.range df.index.length).filter
        (fun j => rowComplete df.cols columns j)
      .ok { df with
            index := keepIdx.map (fun j => df.index.getD j 0),
            cols := df.cols.map (fun c =>
              { c with cells := keepIdx.map (fun j => c.cells.getD j none) }) }

/-- The function only reads `data` (`isnull`, boolean row mask): the
caller's frame is unchanged. -/
def rowfilter_incomplete_observations_inputAfter
    (_skip _only : Option (List String)) (df : DataFrame) : DataFrame := df

/-- A replacement table, as the `{old: new}` dict handed to
`data.replace`; both sides may be the missing value. -/
abbrev ReplacementDict := List (Option ℚ × Option ℚ)

/-- One cell under `data.replace`: dict replacement is simultaneous exact
matching on the original value. -/
def recodeCell (m : ReplacementDict) (cell : Option ℚ) : Option ℚ :=
  (m.lookup cell).getD cell

/-- Pandas elementwise `result.eq(data)` at one cell: `NaN` compares
unequal to everything, itself included. -/
def pandasEq (a b : Option ℚ) : Bool :=
  match a, b with
  | some x, some y => x == y
  | _, _ => false

/-- The change indicator `recode_values` computes for one cell, following
the source lines in order: `diff = result.eq(data)`, then
`diff[pd.isnull(result) == pd.isnull(data)] = True`, then `diff = ~diff`.
Note the mask is an equality of null-indicators, so it is `True` (and
overwrites the `eq` outcome) whenever the two null statuses agree — also
for two differing non-missing values. -/
def recodeDiff (old new : Option ℚ) : Bool :=
  let d := pandasEq new old
  let d := if new.isNone == old.isNone then true else d
  !d

/-- What `recode_values` returns together with the numbers it prints. -/
structure RecodeReport where
  result : DataFrame
  cellsWithChanges : ℕ
  colsWithChanges : ℕ
deriving DecidableEq, Repr

/-- `recode_values(data, replacement_dict, skip, only)`: with `skip`/`only`
the dict is re-keyed per selected column (so only those columns are
recoded); otherwise it applies to every column.  The change audit compares
the whole result frame against the whole input frame cellwise with
`recodeDiff`. -/
def recode_values (replacement_dict : ReplacementDict)
    (skip only_ : Option (List String)) (df : DataFrame) :
    Except MErr RecodeReport :=
  let applyTo : Except MErr (List String) :=
    if skip.isSome || only_.isSome then
      _validate_skip_only (df.cols.map (fun c => c.name)) skip only_
    else .ok (df.cols.map (fun c => c.name))
  match applyTo with
  | .error e => .error e
  | .ok columns =>
      let result := { df with cols := df.cols.map (fun c =>
        if c.name ∈ columns then
          { c with cells := c.cells.map (recodeCell replacement_dict) }
        else c) }
      let changedPerCol := (df.cols.zip result.cols).map (fun p =>
        (p.1.cells.zip p.2.cells).countP (fun q => recodeDiff q.1 q.2))
      .ok { result := result,
            cellsWithChanges := changedPerCol.sum,
            colsWithChanges := changedPerCol.countP (fun k => 0 < k) }

/-- `data.replace(..., inplace=False)` and the diff frames leave the
caller's frame unchanged. -/
def recode_values_inputAfter (_replacement_dict : ReplacementDict)
    (_skip _only : Option (List String)) (df : DataFrame) : DataFrame := df

/-- `xs.mean()` over the non-missing values. -/
def nmean (xs : List ℚ) : ℚ := xs.sum / (xs.length : ℚ)

/-- Pandas sample variance (`ddof=1`) of the non-missing values; in Lean
the `n ≤ 1` division by zero yields `0`, while the call sites reproduce
the source's `NaN` comparisons separately. -/
def sampleVar (xs : List ℚ) : ℚ :=
  (xs.map (fun x => (x - nmean xs) ^ 2)).sum / ((xs.length : ℚ) - 1)

/-- Gaussian outlier test for one cell against the column's non-missing
values: `(data[c] - data[c].mean()).abs() > cutoff * data[c].std()`.
Missing cells propagate `NaN` and compare `False`; with fewer than two
non-missing values `std()` is `NaN` and every comparison is `False`.
Otherwise the source's float inequality `|v - mean| > cutoff * std` is
embedded by its exact square `(v - mean)^2 > cutoff^2 * var` (both sides
of the source inequality are nonnegative since `cutoff > 0` is validated
first), keeping the definition inside `ℚ`. -/
def gaussianFlag (xs : List ℚ) (cutoff : ℚ) (cell : Option ℚ) : Bool :=
  match cell with
  | none => false
  | some v =>
      if xs.length < 2 then false
      else decide ((v - nmean xs) ^ 2 > cutoff ^ 2 * sampleVar xs)

/-- Linear-interpolation quantile of an (already sorted) sample, numpy's
`linear` method used by `Series.quantile`: with `h = p*(n-1)`, the value
is `x⌊h⌋ + (h - ⌊h⌋) * (x⌊h⌋₊₁ - x⌊h⌋)`. -/
def quantileSorted (xs : List ℚ) (p : ℚ) : ℚ :=
  let h : ℚ := p * ((xs.length : ℚ) - 1)
  let i : ℕ := (⌊h⌋).toNat
  let lo := xs.getD i 0
  let hi := xs.getD (i + 1) lo
  lo + (h - (⌊h⌋ : ℚ)) * (hi - lo)

/-- `data[c].quantile(p)`: sort the non-missing values and interpolate;
`NaN` (here `none`) on an empty sample. -/
def quantileOf (xs : List ℚ) (p : ℚ) : Option ℚ :=
  if xs.length = 0 then none
  else some (quantileSorted (xs.insertionSort (fun a b => a ≤ b)) p)

/-- IQR outlier test for one cell: `q1 = quantile(0.25)`,
`q3 = quantile(0.75)`, `iqr = abs(q3 - q1)`, flag when
`value < q1 - iqr*cutoff` or `value > q3 + iqr*cutoff`.  Missing cells
compare `False`; on an all-missing column the quantiles are `NaN` and
nothing is flagged. -/
def iqrFlag (xs : List ℚ) (cutoff : ℚ) (cell : Option ℚ) : Bool :=
  match cell with
  | none => false
  | some v =>
      match quantileOf xs (1/4), quantileOf xs (3/4) with
      | some q1, some q3 =>
          let iqr := |q3 - q1|
          decide (v < q1 - iqr * cutoff) || decide (v > q3 + iqr * cutoff)
      | _, _ => false

/-- Per-column body of the `remove_outliers` loop: a selected,
non-categorical column has its flagged cells replaced by `NaN`; the
statistics are taken from the column's values before any replacement. -/
def processOutlierCol (method : String) (cutoff : ℚ)
    (columns : List String) (col : Column) : Column :=
  if col.name ∈ columns then
    if col.dtype = Dtype.category then col
    else
      let xs := colNonMissing col
      { col with cells := col.cells.map (fun cell =>
          if (if method = "iqr" then iqrFlag xs cutoff cell
              else gaussianFlag xs cutoff cell) then none else cell) }
  else col

/-- `remove_outliers(data, method, cutoff, skip, only)`: deep-copies the
input, resolves the selection, validates `cutoff > 0` then the method
name, and processes each selected non-categorical column independently
(each loop iteration reads and writes only its own column). -/
def remove_outliers (method : String) (cutoff : ℚ)
    (skip only_ : Option (List String)) (df : DataFrame) :
    Except MErr DataFrame :=
  match _validate_skip_only (df.cols.map (fun c => c.name)) skip only_ with
  | .error e => .error e
  | .ok columns =>
      if cutoff ≤ 0 then .error .invalidCutoff
      else if method = "iqr" ∨ method = "gaussian" then
        .ok { df with cols := df.cols.map (processOutlierCol method cutoff columns) }
      else .error (.invalidMethod method)

/-- The source's first statement is `data = data.copy(deep=True)`; every
later write hits the copy, so the caller's frame is unchanged on every
path, error paths included. -/
def remove_outliers_inputAfter (_method : String) (_cutoff : ℚ)
    (_skip _only : Option (List String)) (df : DataFrame) : DataFrame := df

/-- `df.index.name = "ID"`, executed in place on the caller's frame by all
three type casters. -/
def setIndexName (df : DataFrame) : DataFrame :=
  { df with indexName := some "ID" }

/-- `make_binary(df)`: reject a `MultiIndex`, rename the index to `"ID"`,
require every column to have exactly 2 distinct non-missing values
(raising with the count of offenders out of the total), then
`astype('category')`. -/
def make_binary (df : DataFrame) : Except MErr DataFrame :=
  if df.isMultiIndex then .error (.multiIndex "bin_df")
  else
    let df := setIndexName df
    let nonBinary := df.cols.filter (fun c => decide (nunique c ≠ 2))
    if 0 < nonBinary.length then
      .error (.cardinality nonBinary.length df.cols.length)
    else
      .ok { df with cols := df.cols.map (fun c => { c with dtype := Dtype.category }) }

/-- `df.index.name = "ID"` runs on the caller's frame after the
`MultiIndex` check and before the cardinality check, so the caller's index
is renamed in place on every non-`MultiIndex` path, including the
`CardinalityError` path. -/
def make_binary_inputAfter (df : DataFrame) : DataFrame :=
  if df.isMultiIndex then df else setIndexName df

/-- `make_categorical(df)`: reject a `MultiIndex`, rename the index, then
`astype('category')`. -/
def make_categorical (df : DataFrame) : Except MErr DataFrame :=
  if df.isMultiIndex then .error (.multiIndex "cat_df")
  else
    let df := setIndexName df
    .ok { df with cols := df.cols.map (fun c => { c with dtype := Dtype.category }) }

/-- As in `make_binary`: the in-place index rename happens on every
non-`MultiIndex` path. -/
def make_categorical_inputAfter (df : DataFrame) : DataFrame :=
  if df.isMultiIndex then df else setIndexName df

/-- `make_continuous(df)`: reject a `MultiIndex`, rename the index, then
`df.apply(pd.to_numeric)`; in this embedding cells are already rational,
so the coercion always succeeds and tags the columns numeric. -/
def make_continuous (df : DataFrame) : Except MErr DataFrame :=
  if df.isMultiIndex then .error (.multiIndex "cont_df")
  else
    let df := setIndexName df
    .ok { df with cols := df.cols.map (fun c => { c with dtype := Dtype.numeric }) }

/-- As in `make_binary`: the in-place index rename happens on every
non-`MultiIndex` path. -/
def make_continuous_inputAfter (df : DataFrame) : DataFrame :=
  if df.isMultiIndex then df else setIndexName df

/-- The change-detection rule the specification states for `recode_values`:
a cell changed unless the old and new values are equal or both missing
(ordinary equality treats missing-vs-missing as unequal, hence the second
disjunct). -/
def claimChanged (old new : Option ℚ) : Bool :=
  !(pandasEq old new || (old.isNone && new.isNone))

/-! ## Concrete frames used to instantiate the theorems -/

/-- One column holding the single value `10`. -/
def exC1df : DataFrame := ⟨some "ID", false, [1], [⟨"x", Dtype.numeric, [some 10]⟩]⟩

/-- `exC1df` after recoding `10 ↦ 12`. -/
def exC1res : DataFrame := ⟨some "ID", false, [1], [⟨"x", Dtype.numeric, [some 12]⟩]⟩

/-- A two-row frame with an unnamed single-level index and one binary
column. -/
def exBin : DataFrame := ⟨none, false, [1, 2], [⟨"x", Dtype.numeric, [some 0, some 1]⟩]⟩

/-- Two columns: `"a"` entirely zero, `"b"` nonzero. -/
def exPZdf : DataFrame :=
  ⟨none, false, [1], [⟨"a", Dtype.numeric, [some 0]⟩, ⟨"b", Dtype.numeric, [some 1]⟩]⟩

/-- `exPZdf` after `colfilter_percent_zero` with threshold `9/10`. -/
def exPZres : DataFrame := ⟨none, false, [1], [⟨"b", Dtype.numeric, [some 1]⟩]⟩

/-- Column `"x"` entirely missing, column `"y"` fully observed. -/
def exAMdf : DataFrame :=
  ⟨none, false, [1, 2],
   [⟨"x", Dtype.numeric, [none, none]⟩, ⟨"y", Dtype.numeric, [some 1, some 2]⟩]⟩

/-- `exAMdf` after `colfilter_percent_zero` with threshold `2`. -/
def exAMres : DataFrame := ⟨none, false, [1, 2], [⟨"y", Dtype.numeric, [some 1, some 2]⟩]⟩

/-- A column with exactly 200 non-missing values. -/
def exCol200 : Column := ⟨"k", Dtype.numeric, List.replicate 200 (some 1)⟩

/-- A column with 199 non-missing values (and one missing). -/
def exCol199 : Column := ⟨"m", Dtype.numeric, none :: List.replicate 199 (some 1)⟩

/-- Frame with the 200- and 199-valued columns. -/
def exMNdf : DataFrame := ⟨none, false, List.replicate 200 0, [exCol200, exCol199]⟩

/-- `exMNdf` after `colfilter_min_n` with `n = 200`. -/
def exMNres : DataFrame := ⟨none, false, List.replicate 200 0, [exCol200]⟩

/-- One-row one-column frame with a named index. -/
def exRWdf : DataFrame := ⟨some "idx", false, [7], [⟨"x", Dtype.numeric, [some 0]⟩]⟩

/-- `exRWdf` after `colfilter_percent_zero` with threshold `1/2` (the
column is removed). -/
def exRWpz : DataFrame := ⟨some "idx", false, [7], []⟩

/-- Two columns, `"x"` with 3 distinct values and `"y"` with 2. -/
def exMBbad : DataFrame :=
  ⟨none, false, [1, 2, 3],
   [⟨"x", Dtype.numeric, [some 1, some 2, some 3]⟩,
    ⟨"y", Dtype.numeric, [some 0, some 1, some 0]⟩]⟩

/-- One column with values `{0, 1}`. -/
def exMBgood : DataFrame :=
  ⟨none, false, [1, 2, 3], [⟨"y", Dtype.numeric, [some 0, some 1, some 0]⟩]⟩

/-- One selected column explicitly typed categorical, holding an extreme
value. -/
def exCatdf : DataFrame :=
  ⟨none, false, [1, 2], [⟨"c", Dtype.category, [some 1, some 1000000]⟩]⟩

/-- Spec §8 example: column `[1,2,3,4,5,100]`. -/
def exOutdf : DataFrame :=
  ⟨none, false, [1, 2, 3, 4, 5, 6],
   [⟨"x", Dtype.numeric, [some 1, some 2, some 3, some 4, some 5, some 100]⟩]⟩

/-- `exOutdf` after gaussian outlier removal with cutoff 1: only `100` is
replaced by missing. -/
def exOutres : DataFrame :=
  ⟨none, false, [1, 2, 3, 4, 5, 6],
   [⟨"x", Dtype.numeric, [some 1, some 2, some 3, some 4, some 5, none]⟩]⟩

/-! ## Helper lemmas -/

theorem sorted_getD_mono {xs : List ℚ} (hs : xs.Sorted (fun a b => a ≤ b)) {i j : ℕ}
    (hij : i ≤ j) (hj : j < xs.length) : xs.getD i 0 ≤ xs.getD j 0 := by
  rw [List.getD_eq_get xs 0 (lt_of_le_of_lt hij hj), List.getD_eq_get xs 0 hj]
  exact hs.rel_get_of_le hij

theorem floor_toNat_lt {xs : List ℚ} {h : ℚ} (h0 : 0 ≤ h)
    (h1 : h ≤ (xs.length : ℚ) - 1) : (⌊h⌋).toNat < xs.length := by
  have hf0 : (0:ℤ) ≤ ⌊h⌋ := Int.floor_nonneg.mpr h0
  have h2 : (⌊h⌋ : ℚ) ≤ (xs.length : ℚ) - 1 := le_trans (Int.floor_le h) h1
  have hz : ⌊h⌋ ≤ (xs.length : ℤ) - 1 := by exact_mod_cast h2
  omega

/-- The linear-interpolation quantile is monotone in the probability on a
sorted sample, hence `Q1 ≤ Q3` and the source's `abs(q3 - q1)` equals the
specified `Q3 - Q1`. -/
theorem quantileSorted_mono {xs : List ℚ} (hs : xs.Sorted (fun a b => a ≤ b))
    (hne : xs ≠ []) {p q : ℚ} (hp0 : 0 ≤ p) (hpq : p ≤ q) (hq1 : q ≤ 1) :
    quantileSorted xs p ≤ quantileSorted xs q := by
  have hn : 1 ≤ xs.length := List.length_pos.mpr hne
  have hn1 : (0:ℚ) ≤ (xs.length : ℚ) - 1 := by
    have h2 : (1:ℚ) ≤ (xs.length : ℚ) := by exact_mod_cast hn
    linarith
  set n := xs.length with hnn
  set a : ℚ := p * ((n : ℚ) - 1) with ha
  set b : ℚ := q * ((n : ℚ) - 1) with hb
  have ha0 : 0 ≤ a := mul_nonneg hp0 hn1
  have hab : a ≤ b := mul_le_mul_of_nonneg_right hpq hn1
  have hb1 : b ≤ (n : ℚ) - 1 := by
    calc b ≤ 1 * ((n:ℚ) - 1) := mul_le_mul_of_nonneg_right hq1 hn1
    _ = (n:ℚ) - 1 := one_mul _
  have hb0 : 0 ≤ b := le_trans ha0 hab
  have ha1 : a ≤ (n : ℚ) - 1 := le_trans hab hb1
  have hia : (⌊a⌋).toNat < n := floor_toNat_lt ha0 ha1
  have hib : (⌊b⌋).toNat < n := floor_toNat_lt hb0 hb1
  have hfa0 : (0:ℤ) ≤ ⌊a⌋ := Int.floor_nonneg.mpr ha0
  have hfb0 : (0:ℤ) ≤ ⌊b⌋ := Int.floor_nonneg.mpr hb0
  set i := (⌊a⌋).toNat with hi
  set i' := (⌊b⌋).toNat with hi'
  have hca : ((i : ℤ) : ℚ) = (⌊a⌋ : ℚ) := by rw [hi, Int.toNat_of_nonneg hfa0]
  have hcb : ((i' : ℤ) : ℚ) = (⌊b⌋ : ℚ) := by rw [hi', Int.toNat_of_nonneg hfb0]
  have hii : i ≤ i' := by
    have h3 := Int.floor_le_floor (α := ℚ) hab
    omega
  have hta0 : 0 ≤ a - (⌊a⌋ : ℚ) := by linarith [Int.floor_le a]
  have hta1 : a - (⌊a⌋ : ℚ) < 1 := by linarith [Int.lt_floor_add_one a]
  have htb0 : 0 ≤ b - (⌊b⌋ : ℚ) := by linarith [Int.floor_le b]
  have htb1 : b - (⌊b⌋ : ℚ) < 1 := by linarith [Int.lt_floor_add_one b]
  unfold quantileSorted
  simp only [← hnn, ← ha, ← hb, ← hi, ← hi']
  set loa := xs.getD i 0 with hloa
  set hia2 := xs.getD (i+1) loa with hhia
  set lob := xs.getD i' 0 with hlob
  set hib2 := xs.getD (i'+1) lob with hhib
  have hloahia : loa ≤ hia2 := by
    by_cases hrange : i + 1 < n
    · rw [hhia, List.getD_eq_get xs loa hrange, hloa, List.getD_eq_get xs 0 hia]
      have h4 := hs.rel_get_of_le (a := ⟨i, hia⟩) (b := ⟨i+1, hrange⟩) (by simp)
      simpa using h4
    · rw [hhia, List.getD_eq_default xs loa (by omega)]
  have hlobhib : lob ≤ hib2 := by
    by_cases hrange : i' + 1 < n
    · rw [hhib, List.getD_eq_get xs lob hrange, hlob, List.getD_eq_get xs 0 hib]
      have h4 := hs.rel_get_of_le (a := ⟨i', hib⟩) (b := ⟨i'+1, hrange⟩) (by simp)
      simpa using h4
    · rw [hhib, List.getD_eq_default xs lob (by omega)]
  rcases Nat.lt_or_ge i i' with hlt | hge
  · have h1 : loa + (a - (⌊a⌋:ℚ)) * (hia2 - loa) ≤ hia2 := by nlinarith
    have h3 : lob ≤ lob + (b - (⌊b⌋:ℚ)) * (hib2 - lob) := by nlinarith
    have h2 : hia2 ≤ lob := by
      have hrange : i + 1 < n := by omega
      rw [hhia, List.getD_eq_get xs loa hrange]
      rw [hlob, List.getD_eq_get xs 0 hib]
      have h5 := hs.rel_get_of_le (a := ⟨i+1, hrange⟩) (b := ⟨i', hib⟩)
        (by simp only [Fin.mk_le_mk]; omega)
      simpa using h5
    linarith
  · have heq : i = i' := by omega
    have hlo : loa = lob := by rw [hloa, hlob, heq]
    have hhi : hia2 = hib2 := by rw [hhia, hhib, heq, hlo]
    have hfeq : (⌊a⌋ : ℚ) = (⌊b⌋ : ℚ) := by rw [← hca, ← hcb, heq]
    have htab : a - (⌊a⌋:ℚ) ≤ b - (⌊b⌋:ℚ) := by linarith
    rw [← hlo, ← hhi]
    nlinarith

theorem sampleVar_nonneg (xs : List ℚ) : 0 ≤ sampleVar xs := by
  rcases xs with _ | ⟨x, xs⟩
  · simp [sampleVar]
  · apply div_nonneg
    · apply List.sum_nonneg
      intro y hy
      obtain ⟨z, _, rfl⟩ := List.mem_map.mp hy
      positivity
    · have h1 : (1:ℚ) ≤ ((x :: xs).length : ℚ) := by
        have h2 : 1 ≤ (x :: xs).length := List.length_pos.mpr (by simp)
        exact_mod_cast h2
      linarith

/-- The source's squared test on `ℚ` is exactly the specified float test
`|v - mean| > cutoff * std` with the sample standard deviation read as the
real square root of the sample variance. -/
theorem gaussianFlag_iff {xs : List ℚ} {cutoff v : ℚ}
    (hc : 0 < cutoff) (hv : v ∈ xs) :
    gaussianFlag xs cutoff (some v) = true ↔
      (cutoff : ℝ) * Real.sqrt ((sampleVar xs : ℚ) : ℝ) <
        |(v : ℝ) - ((nmean xs : ℚ) : ℝ)| := by
  by_cases hlen : xs.length < 2
  · have h1 : xs.length = 1 := by
      have h2 := List.length_pos.mpr (List.ne_nil_of_mem hv)
      omega
    obtain ⟨a, rfl⟩ := List.length_eq_one.mp h1
    have hva : v = a := by simpa using hv
    subst hva
    have hm : nmean [v] = v := by simp [nmean]
    have hvar : sampleVar [v] = 0 := by simp [sampleVar, hm]
    simp [gaussianFlag, hm, hvar]
  · have hvar : 0 ≤ sampleVar xs := sampleVar_nonneg xs
    have hvarR : (0:ℝ) ≤ ((sampleVar xs : ℚ) : ℝ) := by exact_mod_cast hvar
    have hcR : (0:ℝ) < (cutoff : ℝ) := by exact_mod_cast hc
    rw [gaussianFlag]
    simp only [hlen, if_false, decide_eq_true_eq]
    constructor
    · intro h
      have hR : ((cutoff:ℝ))^2 * ((sampleVar xs : ℚ):ℝ) < ((v:ℝ) - ((nmean xs : ℚ):ℝ))^2 := by
        exact_mod_cast h
      nlinarith [Real.sqrt_nonneg ((sampleVar xs : ℚ):ℝ),
        Real.sq_sqrt hvarR,
        abs_nonneg ((v:ℝ) - ((nmean xs : ℚ):ℝ)),
        sq_abs ((v:ℝ) - ((nmean xs : ℚ):ℝ))]
    · intro h
      have hsq : ((cutoff:ℝ) * Real.sqrt ((sampleVar xs : ℚ):ℝ))^2 < ((v:ℝ) - ((nmean xs : ℚ):ℝ))^2 := by
        have h0 : (0:ℝ) ≤ (cutoff:ℝ) * Real.sqrt ((sampleVar xs : ℚ):ℝ) :=
          mul_nonneg hcR.le (Real.sqrt_nonneg _)
        calc ((cutoff:ℝ) * Real.sqrt ((sampleVar xs : ℚ):ℝ))^2
            < |(v:ℝ) - ((nmean xs : ℚ):ℝ)|^2 := by
              apply pow_lt_pow_left h h0
              norm_num
          _ = ((v:ℝ) - ((nmean xs : ℚ):ℝ))^2 := sq_abs _
      rw [mul_pow, Real.sq_sqrt hvarR] at hsq
      exact_mod_cast hsq

/-- The source's IQR test with `iqr = abs(q3 - q1)` is exactly the
specified test with `IQR = Q3 - Q1`. -/
theorem iqrFlag_iff {xs : List ℚ} (cutoff v : ℚ) (hne : xs ≠ []) :
    iqrFlag xs cutoff (some v) = true ↔
      (v < quantileSorted (xs.insertionSort (fun a b => a ≤ b)) (1/4) -
            cutoff * (quantileSorted (xs.insertionSort (fun a b => a ≤ b)) (3/4) -
                      quantileSorted (xs.insertionSort (fun a b => a ≤ b)) (1/4)) ∨
       quantileSorted (xs.insertionSort (fun a b => a ≤ b)) (3/4) +
            cutoff * (quantileSorted (xs.insertionSort (fun a b => a ≤ b)) (3/4) -
                      quantileSorted (xs.insertionSort (fun a b => a ≤ b)) (1/4)) < v) := by
  have hlen : ¬ xs.length = 0 := by
    have h0 : 0 < xs.length := List.length_pos.mpr hne
    omega
  set ys := xs.insertionSort (fun a b => a ≤ b) with hys
  have hsorted : ys.Sorted (fun a b => a ≤ b) := List.sorted_insertionSort _ xs
  have hysne : ys ≠ [] := by
    intro h0
    apply hne
    have hperm := List.perm_insertionSort (fun a b => a ≤ b) xs
    rw [hys] at h0
    exact List.eq_nil_of_length_eq_zero (by
      have := hperm.length_eq
      rw [h0] at this
      simpa using this.symm)
  set q1 := quantileSorted ys (1/4) with hq1
  set q3 := quantileSorted ys (3/4) with hq3
  have hq13 : q1 ≤ q3 :=
    quantileSorted_mono hsorted hysne (by norm_num) (by norm_num) (by norm_num)
  have habs : |q3 - q1| = q3 - q1 := abs_of_nonneg (by linarith)
  rw [iqrFlag]
  simp only [quantileOf, hlen, if_false, ← hys, ← hq1, ← hq3, habs,
    Bool.or_eq_true, decide_eq_true_eq]
  constructor
  · rintro (h | h)
    · exact Or.inl (by linarith [mul_comm (q3 - q1) cutoff])
    · exact Or.inr (by linarith [mul_comm (q3 - q1) cutoff])
  · rintro (h | h)
    · exact Or.inl (by linarith [mul_comm cutoff (q3 - q1)])
    · exact Or.inr (by linarith [mul_comm cutoff (q3 - q1)])

/-! ## Claim theorems -/

/-- C1 (code bug): the spec's change-detection rule says a cell counts as
changed unless the old and new values are equal or both are missing, so a
non-missing value replaced by a different non-missing value must be
counted.  The source instead overwrites the equality comparison with
`True` at every cell whose null status did not change
(`diff[pd.isnull(result) == pd.isnull(data)] = True`), so a `10 ↦ 12`
replacement is performed but counted as no change: on `exC1df` with
replacement dict `{10: 12}` the value is replaced, yet the reported count
of changed cells (and changed columns) is `0`, while the specified rule
classifies the cell as changed. -/
theorem recode_values_change_count_bug :
    recode_values [(some 10, some 12)] none none exC1df =
      .ok ⟨exC1res, 0, 0⟩ ∧
    exC1res ≠ exC1df ∧
    claimChanged (some 10) (some 12) = true := by decide

/-- C2 counterexample: `make_binary` executes `df.index.name = "ID"` on
the caller's frame, so an input whose index is unnamed is mutated in
place: its index metadata differs after the call, refuting the claim that
every core operation leaves its input unchanged. -/
theorem make_binary_mutates_input :
    make_binary_inputAfter exBin ≠ exBin := by decide

/-- C2 (amended): the column filters, the row filter, `recode_values` and
`remove_outliers` leave the caller's dataset unchanged by value on every
path; the three type casters leave all cell values, the column set and
the row identifiers unchanged, but rename the caller's index to `"ID"` in
place whenever the index is not a multi-level index (only the multi-index
error path precedes that write). -/
theorem core_ops_input_effects :
    (∀ (p : ℚ) s o df, colfilter_percent_zero_inputAfter p s o df = df) ∧
    (∀ (n : ℕ) s o df, colfilter_min_n_inputAfter n s o df = df) ∧
    (∀ (n : ℕ) s o df, colfilter_min_cat_n_inputAfter n s o df = df) ∧
    (∀ s o df, rowfilter_incomplete_observations_inputAfter s o df = df) ∧
    (∀ (m : ReplacementDict) s o df, recode_values_inputAfter m s o df = df) ∧
    (∀ (me : String) (c : ℚ) s o df, remove_outliers_inputAfter me c s o df = df) ∧
    (∀ df : DataFrame,
      (make_binary_inputAfter df).cols = df.cols ∧
      (make_binary_inputAfter df).index = df.index ∧
      (make_binary_inputAfter df).isMultiIndex = df.isMultiIndex ∧
      (make_binary_inputAfter df).indexName =
        (if df.isMultiIndex then df.indexName else some "ID")) ∧
    (∀ df : DataFrame,
      (make_categorical_inputAfter df).cols = df.cols ∧
      (make_categorical_inputAfter df).index = df.index ∧
      (make_categorical_inputAfter df).isMultiIndex = df.isMultiIndex ∧
      (make_categorical_inputAfter df).indexName =
        (if df.isMultiIndex then df.indexName else some "ID")) ∧
    (∀ df : DataFrame,
      (make_continuous_inputAfter df).cols = df.cols ∧
      (make_continuous_inputAfter df).index = df.index ∧
      (make_continuous_inputAfter df).isMultiIndex = df.isMultiIndex ∧
      (make_continuous_inputAfter df).indexName =
        (if df.isMultiIndex then df.indexName else some "ID")) := by
  refine ⟨fun _ _ _ _ => rfl, fun _ _ _ _ => rfl, fun _ _ _ _ => rfl,
    fun _ _ _ => rfl, fun _ _ _ _ => rfl, fun _ _ _ _ _ => rfl, ?_, ?_, ?_⟩
  · intro df
    by_cases h : df.isMultiIndex <;> simp [make_binary_inputAfter, h, setIndexName]
  · intro df
    by_cases h : df.isMultiIndex <;> simp [make_categorical_inputAfter, h, setIndexName]
  · intro df
    by_cases h : df.isMultiIndex <;> simp [make_continuous_inputAfter, h, setIndexName]

/-- C8: `remove_outliers` called with `cutoff ≤ 0` or with a method other
than `gaussian`/`iqr` returns an error — no cleaned dataset is produced —
and the caller's dataset is untouched (the source deep-copies before
doing anything else, so no partial mutation is ever committed). -/
theorem remove_outliers_invalid_args (method : String) (cutoff : ℚ)
    (skip only_ : Option (List String)) (df : DataFrame)
    (h : cutoff ≤ 0 ∨ (method ≠ "gaussian" ∧ method ≠ "iqr")) :
    (∃ e, remove_outliers method cutoff skip only_ df = .error e) ∧
    remove_outliers_inputAfter method cutoff skip only_ df = df := by
  refine ⟨?_, rfl⟩
  cases hsel : _validate_skip_only (df.cols.map (fun c => c.name)) skip only_ with
  | error e => exact ⟨e, by simp [remove_outliers, hsel]⟩
  | ok columns =>
    by_cases hc : cutoff ≤ 0
    · exact ⟨.invalidCutoff, by simp [remove_outliers, hsel, hc]⟩
    · rcases h with h | ⟨hg, hi⟩
      · exact absurd h hc
      · refine ⟨.invalidMethod method, ?_⟩
        simp [remove_outliers, hsel, hc, hi, hg]

/-- C8 witness: a negative cutoff on a concrete frame. -/
theorem remove_outliers_invalid_args_witness :
    (∃ e, remove_outliers "gaussian" (-1) none none exBin = .error e) ∧
    remove_outliers_inputAfter "gaussian" (-1) none none exBin = exBin :=
  remove_outliers_invalid_args "gaussian" (-1) none none exBin (Or.inl (by norm_num))

/-- C9: a selected column with no non-missing value has the `0/0 = NaN`
percent-zero statistic; `NaN < proportion` is `False`, so the column is
dropped whatever the threshold is. -/
theorem colfilter_percent_zero_all_missing (proportion : ℚ)
    (skip only_ : Option (List String)) (df res : DataFrame)
    (columns : List String) (col : Column)
    (hsel : _validate_skip_only (df.cols.map (fun c => c.name)) skip only_ = .ok columns)
    (hres : colfilter_percent_zero proportion skip only_ df = .ok res)
    (hname : col.name ∈ columns)
    (hmiss : nonMissingCount col = 0) :
    col ∉ res.cols := by
  have hresEq : res = { df with cols := df.cols.filter (pzKept proportion columns) } := by
    simp only [colfilter_percent_zero, hsel, Except.ok.injEq] at hres
    exact hres.symm
  intro hmem
  rw [hresEq] at hmem
  have hkept := List.of_mem_filter hmem
  rw [pzKept] at hkept
  simp [percentZero, hmiss, hname] at hkept

/-- C9 witness: the all-missing column `"x"` is removed even with the
threshold set to `2`, above any attainable ratio. -/
theorem colfilter_percent_zero_all_missing_witness :
    (⟨"x", Dtype.numeric, [none, none]⟩ : Column) ∉ exAMres.cols :=
  colfilter_percent_zero_all_missing 2 none none exAMdf exAMres ["x", "y"]
    ⟨"x", Dtype.numeric, [none, none]⟩ (by decide)
    (by
      simp [colfilter_percent_zero, _validate_skip_only, exAMdf, exAMres, pzKept,
        percentZero, nonMissingCount, zeroCount])
    (by decide) (by decide)

/-- C4: `colfilter_percent_zero` drops a selected column (with at least
one non-missing value, so that the ratio is defined) iff
`zero_count / non_missing_count ≥ proportion`; a column outside the
selection is never removed; the output columns are a subset of the input
columns. -/
theorem colfilter_percent_zero_spec (proportion : ℚ)
    (skip only_ : Option (List String)) (df res : DataFrame)
    (columns : List String)
    (hsel : _validate_skip_only (df.cols.map (fun c => c.name)) skip only_ = .ok columns)
    (hres : colfilter_percent_zero proportion skip only_ df = .ok res) :
    (∀ col ∈ df.cols, col.name ∈ columns → 0 < nonMissingCount col →
      (col ∉ res.cols ↔
        proportion ≤ (zeroCount col : ℚ) / (nonMissingCount col : ℚ))) ∧
    (∀ col ∈ df.cols, col.name ∉ columns → col ∈ res.cols) ∧
    (∀ col ∈ res.cols, col ∈ df.cols) := by
  have hresEq : res = { df with cols := df.cols.filter (pzKept proportion columns) } := by
    simp only [colfilter_percent_zero, hsel, Except.ok.injEq] at hres
    exact hres.symm
  subst hresEq
  refine ⟨?_, ?_, ?_⟩
  · intro col hcol hname hnm
    have hnm0 : nonMissingCount col ≠ 0 := by omega
    have hkeep : pzKept proportion columns col =
        decide ((zeroCount col : ℚ) / (nonMissingCount col : ℚ) < proportion) := by
      rw [pzKept]
      simp [percentZero, hnm0, hname]
    constructor
    · intro hnot
      by_contra hlt
      push_neg at hlt
      exact hnot (List.mem_filter.mpr ⟨hcol, by rw [hkeep]; exact decide_eq_true hlt⟩)
    · intro hge hmem
      have h2 := List.of_mem_filter hmem
      rw [hkeep] at h2
      have h3 := of_decide_eq_true h2
      linarith
  · intro col hcol hname
    refine List.mem_filter.mpr ⟨hcol, ?_⟩
    rw [pzKept]
    simp [hname]
  · intro col hcol
    exact (List.mem_filter.mp hcol).1

/-- C4 witness: with threshold `9/10`, the all-zero column `"a"`
(ratio `1`) is dropped and the nonzero column `"b"` (ratio `0`) is kept. -/
theorem colfilter_percent_zero_spec_witness :
    (⟨"a", Dtype.numeric, [some 0]⟩ : Column) ∉ exPZres.cols ∧
    (⟨"b", Dtype.numeric, [some 1]⟩ : Column) ∈ exPZres.cols := by
  have h := colfilter_percent_zero_spec (9/10) none none exPZdf exPZres ["a", "b"]
    (by decide)
    (by norm_num [colfilter_percent_zero, _validate_skip_only, exPZdf, exPZres, pzKept,
          percentZero, nonMissingCount, zeroCount, List.filter])
  constructor
  · apply (h.1 ⟨"a", Dtype.numeric, [some 0]⟩ (by decide) (by decide) (by decide)).mpr
    have h1 : zeroCount ⟨"a", Dtype.numeric, [some 0]⟩ = 1 := by decide
    have h2 : nonMissingCount ⟨"a", Dtype.numeric, [some 0]⟩ = 1 := by decide
    rw [h1, h2]
    norm_num
  · have hb := h.1 ⟨"b", Dtype.numeric, [some 1]⟩ (by decide) (by decide) (by decide)
    by_contra hn
    have h3 := hb.mp hn
    have h1 : zeroCount ⟨"b", Dtype.numeric, [some 1]⟩ = 0 := by decide
    have h2 : nonMissingCount ⟨"b", Dtype.numeric, [some 1]⟩ = 1 := by decide
    rw [h1, h2] at h3
    norm_num at h3

/-- C6: `colfilter_min_n` drops a selected column iff its count of
non-missing values is strictly below `n`; unselected columns are kept and
the output columns are a subset of the input columns. -/
theorem colfilter_min_n_spec (n : ℕ)
    (skip only_ : Option (List String)) (df res : DataFrame)
    (columns : List String)
    (hsel : _validate_skip_only (df.cols.map (fun c => c.name)) skip only_ = .ok columns)
    (hres : colfilter_min_n n skip only_ df = .ok res) :
    (∀ col ∈ df.cols, col.name ∈ columns →
      (col ∉ res.cols ↔ nonMissingCount col < n)) ∧
    (∀ col ∈ df.cols, col.name ∉ columns → col ∈ res.cols) ∧
    (∀ col ∈ res.cols, col ∈ df.cols) := by
  have hresEq : res = { df with cols := df.cols.filter (mnKept n columns) } := by
    simp only [colfilter_min_n, hsel, Except.ok.injEq] at hres
    exact hres.symm
  subst hresEq
  refine ⟨?_, ?_, ?_⟩
  · intro col hcol hname
    have hkeep : mnKept n columns col = decide (n ≤ nonMissingCount col) := by
      rw [mnKept]
      simp [hname]
    constructor
    · intro hnot
      by_contra hge
      push_neg at hge
      exact hnot (List.mem_filter.mpr ⟨hcol, by rw [hkeep]; exact decide_eq_true hge⟩)
    · intro hlt hmem
      have h2 := List.of_mem_filter hmem
      rw [hkeep] at h2
      have h3 := of_decide_eq_true h2
      omega
  · intro col hcol hname
    refine List.mem_filter.mpr ⟨hcol, ?_⟩
    rw [mnKept]
    simp [hname]
  · intro col hcol
    exact (List.mem_filter.mp hcol).1

set_option maxRecDepth 8000 in
/-- C6 witness, the spec's threshold-boundary case: with `n = 200` the
column with exactly 200 non-missing values is kept and the column with
199 is removed. -/
theorem colfilter_min_n_spec_witness :
    exCol200 ∈ exMNres.cols ∧ exCol199 ∉ exMNres.cols := by
  have h := colfilter_min_n_spec 200 none none exMNdf exMNres ["k", "m"]
    (by decide) (by decide)
  constructor
  · have hb := h.1 exCol200 (by decide) (by decide)
    by_contra hn
    have h3 := hb.mp hn
    have h1 : nonMissingCount exCol200 = 200 := by decide
    omega
  · apply (h.1 exCol199 (by decide) (by decide)).mpr
    have h1 : nonMissingCount exCol199 = 199 := by decide
    omega

/-- C10: none of the three column filters changes the rows: the result
keeps the input's row identifiers (in order) and its index name, and
every surviving column is carried over whole (same name, same cells in
the same order), as a sublist of the input's columns. -/
theorem colfilters_preserve_rows (p : ℚ) (n m : ℕ)
    (s1 o1 s2 o2 s3 o3 : Option (List String)) (df r1 r2 r3 : DataFrame)
    (h1 : colfilter_percent_zero p s1 o1 df = .ok r1)
    (h2 : colfilter_min_n n s2 o2 df = .ok r2)
    (h3 : colfilter_min_cat_n m s3 o3 df = .ok r3) :
    (r1.index = df.index ∧ r1.indexName = df.indexName ∧ r1.cols.Sublist df.cols) ∧
    (r2.index = df.index ∧ r2.indexName = df.indexName ∧ r2.cols.Sublist df.cols) ∧
    (r3.index = df.index ∧ r3.indexName = df.indexName ∧ r3.cols.Sublist df.cols) := by
  refine ⟨?_, ?_, ?_⟩
  · cases hsel : _validate_skip_only (df.cols.map (fun c => c.name)) s1 o1 with
    | error e => simp [colfilter_percent_zero, hsel] at h1
    | ok columns =>
      simp only [colfilter_percent_zero, hsel, Except.ok.injEq] at h1
      rw [← h1]
      exact ⟨rfl, rfl, List.filter_sublist df.cols⟩
  · cases hsel : _validate_skip_only (df.cols.map (fun c => c.name)) s2 o2 with
    | error e => simp [colfilter_min_n, hsel] at h2
    | ok columns =>
      simp only [colfilter_min_n, hsel, Except.ok.injEq] at h2
      rw [← h2]
      exact ⟨rfl, rfl, List.filter_sublist df.cols⟩
  · cases hsel : _validate_skip_only (df.cols.map (fun c => c.name)) s3 o3 with
    | error e => simp [colfilter_min_cat_n, hsel] at h3
    | ok columns =>
      simp only [colfilter_min_cat_n, hsel, Except.ok.injEq] at h3
      rw [← h3]
      exact ⟨rfl, rfl, List.filter_sublist df.cols⟩

/-- C10 witness: the three filters at concrete thresholds on a one-column
frame with a named index (`colfilter_percent_zero` removes the column,
the other two keep it; rows and index survive in all three). -/
theorem colfilters_preserve_rows_witness :
    (exRWpz.index = exRWdf.index ∧ exRWpz.indexName = exRWdf.indexName ∧
      exRWpz.cols.Sublist exRWdf.cols) ∧
    (exRWdf.index = exRWdf.index ∧ exRWdf.indexName = exRWdf.indexName ∧
      exRWdf.cols.Sublist exRWdf.cols) ∧
    (exRWdf.index = exRWdf.index ∧ exRWdf.indexName = exRWdf.indexName ∧
      exRWdf.cols.Sublist exRWdf.cols) :=
  colfilters_preserve_rows (1/2) 0 0 none none none none none none
    exRWdf exRWpz exRWdf exRWdf
    (by norm_num [colfilter_percent_zero, _validate_skip_only, exRWdf, exRWpz, pzKept,
          percentZero, nonMissingCount, zeroCount, List.filter])
    (by decide) (by decide)

/-- C7: on a single-level-index dataframe, `make_binary` fails iff some
column does not have exactly 2 distinct non-missing values, and the error
carries the number of offending columns out of the total; when every
column has exactly 2 distinct non-missing values it succeeds, tagging
every column categorical while keeping its cells, hence 2 levels. -/
theorem make_binary_spec (df : DataFrame) (hmi : df.isMultiIndex = false) :
    (0 < df.cols.countP (fun c => decide (nunique c ≠ 2)) →
      make_binary df = .error (.cardinality
        (df.cols.countP (fun c => decide (nunique c ≠ 2))) df.cols.length)) ∧
    ((∀ col ∈ df.cols, nunique col = 2) →
      ∃ res, make_binary df = .ok res ∧
        res.cols.length = df.cols.length ∧
        ∀ col ∈ res.cols, col.dtype = Dtype.category ∧ nunique col = 2) := by
  constructor
  · intro hbad
    rw [make_binary]
    simp only [hmi, Bool.false_eq_true, if_false]
    rw [if_pos]
    · simp [setIndexName, List.countP_eq_length_filter]
    · rw [setIndexName]
      simp only [List.countP_eq_length_filter] at hbad
      simpa using hbad
  · intro hgood
    have hzero : df.cols.countP (fun c => decide (nunique c ≠ 2)) = 0 := by
      rw [List.countP_eq_zero]
      intro c hc
      simp [hgood c hc]
    refine ⟨{ setIndexName df with
              cols := (setIndexName df).cols.map (fun c => { c with dtype := Dtype.category }) },
            ?_, by simp [setIndexName], ?_⟩
    · rw [make_binary]
      simp only [hmi, Bool.false_eq_true, if_false]
      rw [if_neg]
      simp only [List.countP_eq_length_filter] at hzero
      rw [setIndexName]
      simp only
      omega
    · intro col hcol
      simp only [setIndexName, List.mem_map] at hcol
      obtain ⟨c, hc, rfl⟩ := hcol
      refine ⟨rfl, ?_⟩
      have h2 : nunique { c with dtype := Dtype.category } = nunique c := rfl
      rw [h2]
      exact hgood c hc

/-- C7 witness: a frame containing a 3-valued column fails with the
cardinality error reporting 1 offender of 2 columns; the frame whose only
column has values `{0, 1}` succeeds with the column tagged categorical
with 2 levels. -/
theorem make_binary_spec_witness :
    make_binary exMBbad = .error (.cardinality 1 2) ∧
    (∃ res, make_binary exMBgood = .ok res ∧
      res.cols.length = exMBgood.cols.length ∧
      ∀ col ∈ res.cols, col.dtype = Dtype.category ∧ nunique col = 2) := by
  constructor
  · have h := (make_binary_spec exMBbad rfl).1 (by decide)
    have e1 : exMBbad.cols.countP (fun c => decide (nunique c ≠ 2)) = 1 := by decide
    have e2 : exMBbad.cols.length = 2 := by decide
    rw [e1, e2] at h
    exact h
  · exact (make_binary_spec exMBgood rfl).2 (by decide)

/-- C5: for both methods and any positive cutoff, a selected column typed
categorical passes through `remove_outliers` completely unchanged (every
value, plus name and dtype). -/
theorem remove_outliers_categorical_skip (method : String) (cutoff : ℚ)
    (skip only_ : Option (List String)) (df res : DataFrame)
    (columns : List String) (i : ℕ)
    (hm : method = "gaussian" ∨ method = "iqr") (hc : 0 < cutoff)
    (hsel : _validate_skip_only (df.cols.map (fun c => c.name)) skip only_ = .ok columns)
    (hres : remove_outliers method cutoff skip only_ df = .ok res)
    (hi : i < df.cols.length)
    (hname : (df.cols.getD i default).name ∈ columns)
    (hdt : (df.cols.getD i default).dtype = Dtype.category) :
    res.cols.getD i default = df.cols.getD i default := by
  have hcle : ¬ cutoff ≤ 0 := not_le.mpr hc
  have hm2 : method = "iqr" ∨ method = "gaussian" := hm.symm
  have hresEq : res = { df with
      cols := df.cols.map (processOutlierCol method cutoff columns) } := by
    simp only [remove_outliers, hsel, hcle, if_false, hm2, if_true, Except.ok.injEq] at hres
    exact hres.symm
  subst hresEq
  simp only
  rw [List.getD_eq_get _ _ (by simpa using hi), List.get_map, List.getD_eq_get _ _ hi]
  rw [List.getD_eq_get _ _ hi] at hname hdt
  rw [processOutlierCol, if_pos hname, if_pos hdt]

/-- C5 witness: a categorical column with an extreme value is untouched
by gaussian removal with cutoff 1. -/
theorem remove_outliers_categorical_skip_witness :
    ∃ res, remove_outliers "gaussian" 1 none none exCatdf = .ok res ∧
      res.cols.getD 0 default = exCatdf.cols.getD 0 default := by
  refine ⟨exCatdf, ?hrun, ?_⟩
  case hrun => simp [remove_outliers, _validate_skip_only, exCatdf, processOutlierCol]
  exact remove_outliers_categorical_skip "gaussian" 1 none none exCatdf exCatdf ["c"] 0
    (Or.inl rfl) (by norm_num) (by decide)
    (by simp [remove_outliers, _validate_skip_only, exCatdf, processOutlierCol])
    (by decide) (by decide) (by decide)

/-- C3: for a selected non-categorical column, `remove_outliers` replaces
with missing exactly the cells flagged by the stated statistical rule —
gaussian: `|v - mean| > cutoff * sample-std` (std as the real square root
of the sample variance of the non-missing values); iqr: `v < Q1 - cutoff*IQR`
or `v > Q3 + cutoff*IQR` with `Q1`, `Q3` the linear-interpolation quantiles
of the non-missing values and `IQR = Q3 - Q1` — while missing cells are
excluded from the statistics and are never flagged. -/
theorem remove_outliers_flag_spec (method : String) (cutoff : ℚ)
    (skip only_ : Option (List String)) (df res : DataFrame)
    (columns : List String) (i : ℕ)
    (hsel : _validate_skip_only (df.cols.map (fun c => c.name)) skip only_ = .ok columns)
    (hres : remove_outliers method cutoff skip only_ df = .ok res)
    (hi : i < df.cols.length)
    (hname : (df.cols.getD i default).name ∈ columns)
    (hdt : (df.cols.getD i default).dtype ≠ Dtype.category) :
    (res.cols.getD i default).name = (df.cols.getD i default).name ∧
    (res.cols.getD i default).dtype = (df.cols.getD i default).dtype ∧
    (∀ j : ℕ, (df.cols.getD i default).cells.getD j none = none →
      (res.cols.getD i default).cells.getD j none = none) ∧
    (∀ j : ℕ, ∀ v : ℚ, (df.cols.getD i default).cells.getD j none = some v →
      (method = "gaussian" →
        ((res.cols.getD i default).cells.getD j none = none ↔
          (cutoff : ℝ) * Real.sqrt ((sampleVar (colNonMissing (df.cols.getD i default)) : ℚ) : ℝ) <
            |(v : ℝ) - ((nmean (colNonMissing (df.cols.getD i default)) : ℚ) : ℝ)|) ∧
        ((res.cols.getD i default).cells.getD j none ≠ none →
          (res.cols.getD i default).cells.getD j none = some v)) ∧
      (method = "iqr" →
        ((res.cols.getD i default).cells.getD j none = none ↔
          (v < quantileSorted ((colNonMissing (df.cols.getD i default)).insertionSort (fun a b => a ≤ b)) (1/4) - cutoff * (quantileSorted ((colNonMissing (df.cols.getD i default)).insertionSort (fun a b => a ≤ b)) (3/4) - quantileSorted ((colNonMissing (df.cols.getD i default)).insertionSort (fun a b => a ≤ b)) (1/4)) ∨
           quantileSorted ((colNonMissing (df.cols.getD i default)).insertionSort (fun a b => a ≤ b)) (3/4) + cutoff * (quantileSorted ((colNonMissing (df.cols.getD i default)).insertionSort (fun a b => a ≤ b)) (3/4) - quantileSorted ((colNonMissing (df.cols.getD i default)).insertionSort (fun a b => a ≤ b)) (1/4)) < v)) ∧
        ((res.cols.getD i default).cells.getD j none ≠ none →
          (res.cols.getD i default).cells.getD j none = some v))) := by
  by_cases hcle : cutoff ≤ 0
  · exfalso
    simp [remove_outliers, hsel, hcle] at hres
  by_cases hm : method = "iqr" ∨ method = "gaussian"
  case neg =>
    exfalso
    simp [remove_outliers, hsel, hcle, hm] at hres
  have hcut : 0 < cutoff := not_le.mp hcle
  have hresEq : res = { df with
      cols := df.cols.map (processOutlierCol method cutoff columns) } := by
    simp only [remove_outliers, hsel, hcle, if_false, hm, if_true, Except.ok.injEq] at hres
    exact hres.symm
  have hcol' : res.cols.getD i default =
      processOutlierCol method cutoff columns (df.cols.getD i default) := by
    rw [hresEq]
    simp only
    rw [List.getD_eq_get _ _ (show i < (df.cols.map (processOutlierCol method cutoff columns)).length by simpa using hi), List.get_map]
    rw [List.getD_eq_get _ _ hi]
  have hres' : res.cols.getD i default = { df.cols.getD i default with
      cells := (df.cols.getD i default).cells.map (fun cell => if (if method = "iqr" then iqrFlag (colNonMissing (df.cols.getD i default)) cutoff cell else gaussianFlag (colNonMissing (df.cols.getD i default)) cutoff cell) then none else cell) } := by
    rw [hcol', processOutlierCol, if_pos hname, if_neg hdt]
  refine ⟨by rw [hres'], by rw [hres'], ?_, ?_⟩
  · intro j hj
    rcases Nat.lt_or_ge j (df.cols.getD i default).cells.length with hlt | hge
    · rw [List.getD_eq_get _ _ hlt] at hj
      rw [hres']
      simp only
      rw [List.getD_eq_get _ _ (show j < ((df.cols.getD i default).cells.map (fun cell => if (if method = "iqr" then iqrFlag (colNonMissing (df.cols.getD i default)) cutoff cell else gaussianFlag (colNonMissing (df.cols.getD i default)) cutoff cell) then none else cell)).length by simpa using hlt), List.get_map, hj]
      exact ite_self none
    · rw [hres']
      simp only
      rw [List.getD_eq_default _ _ (by simpa using hge)]
  · intro j v hjv
    have hjlt : j < (df.cols.getD i default).cells.length := by
      rcases Nat.lt_or_ge j (df.cols.getD i default).cells.length with hlt | hge
      · exact hlt
      · rw [List.getD_eq_default _ _ hge] at hjv
        cases hjv
    have hvmem : v ∈ colNonMissing (df.cols.getD i default) := by
      rw [List.getD_eq_get _ _ hjlt] at hjv
      refine List.mem_filterMap.mpr ⟨some v, ?_, rfl⟩
      rw [← hjv]
      exact List.get_mem _ _ _
    have hxsne : colNonMissing (df.cols.getD i default) ≠ [] :=
      List.ne_nil_of_mem hvmem
    have hcellj : (res.cols.getD i default).cells.getD j none = (if (if method = "iqr" then iqrFlag (colNonMissing (df.cols.getD i default)) cutoff (some v) else gaussianFlag (colNonMissing (df.cols.getD i default)) cutoff (some v)) then none else some v) := by
      rw [hres']
      simp only
      rw [List.getD_eq_get _ _ (show j < ((df.cols.getD i default).cells.map (fun cell => if (if method = "iqr" then iqrFlag (colNonMissing (df.cols.getD i default)) cutoff cell else gaussianFlag (colNonMissing (df.cols.getD i default)) cutoff cell) then none else cell)).length by simpa using hjlt), List.get_map]
      rw [List.getD_eq_get _ _ hjlt] at hjv
      rw [hjv]
    constructor
    · intro hg
      subst hg
      rw [if_neg (by decide : ¬("gaussian" = "iqr"))] at hcellj
      constructor
      · rw [hcellj]
        by_cases hflag : gaussianFlag (colNonMissing (df.cols.getD i default)) cutoff (some v) = true
        · rw [if_pos hflag]
          exact iff_of_true rfl ((gaussianFlag_iff hcut hvmem).mp hflag)
        · rw [if_neg hflag]
          exact iff_of_false (by simp) (fun hR => hflag ((gaussianFlag_iff hcut hvmem).mpr hR))
      · intro hne
        rw [hcellj]
        by_cases hflag : gaussianFlag (colNonMissing (df.cols.getD i default)) cutoff (some v) = true
        · exfalso
          rw [hcellj, if_pos hflag] at hne
          exact hne rfl
        · rw [if_neg hflag]
    · intro hg
      subst hg
      rw [if_pos rfl] at hcellj
      constructor
      · rw [hcellj]
        by_cases hflag : iqrFlag (colNonMissing (df.cols.getD i default)) cutoff (some v) = true
        · rw [if_pos hflag]
          exact iff_of_true rfl ((iqrFlag_iff cutoff v hxsne).mp hflag)
        · rw [if_neg hflag]
          exact iff_of_false (by simp) (fun hR => hflag ((iqrFlag_iff cutoff v hxsne).mpr hR))
      · intro hne
        rw [hcellj]
        by_cases hflag : iqrFlag (colNonMissing (df.cols.getD i default)) cutoff (some v) = true
        · exfalso
          rw [hcellj, if_pos hflag] at hne
          exact hne rfl
        · rw [if_neg hflag]

/-- C3 witness (the spec §8 outlier-symmetry example): on the column
`[1,2,3,4,5,100]` with gaussian method and cutoff 1, the cell `100` is
replaced by missing — hence satisfies the real standard-deviation
inequality — while the cell `1` survives unchanged. -/
theorem remove_outliers_flag_spec_witness :
    ((1:ℚ):ℝ) * Real.sqrt ((sampleVar (colNonMissing (exOutdf.cols.getD 0 default)) : ℚ) : ℝ) <
      |((100:ℚ) : ℝ) - ((nmean (colNonMissing (exOutdf.cols.getD 0 default)) : ℚ) : ℝ)| ∧
    (exOutres.cols.getD 0 default).cells.getD 0 none = some 1 := by
  have h := remove_outliers_flag_spec "gaussian" 1 none none exOutdf exOutres ["x"] 0
    (by decide)
    (by norm_num [remove_outliers, _validate_skip_only, exOutdf, exOutres,
          processOutlierCol, colNonMissing, gaussianFlag, nmean, sampleVar,
          List.filterMap, List.filter,
          (by decide : ¬ ("gaussian":String) = "iqr"),
          (by decide : ¬ Dtype.numeric = Dtype.category)])
    (by decide) (by decide) (by decide)
  refine ⟨((h.2.2.2 5 100 (by decide)).1 rfl).1.mp (by decide), ?_⟩
  exact ((h.2.2.2 0 1 (by decide)).1 rfl).2 (by decide)
